import Mathlib

/-!
Shallow embedding of `minigrid/envs/continuousdoors.py` (class `ContinuousDoorsEnv`).

The environment consists of a layout generator (`_gen_grid`), a milestone tracker
wrapped around `step`, and a `reset` that clears the per-episode achievement map.
The host framework (`MiniGridEnv`, `Grid`, the world objects) is external: its
outputs are abstracted as parameters, and the handful of framework primitives the
claims depend on (`wall_rect`, `vert_wall`, `_rand_int`, object attributes) are
modelled from the spec where noted.

Conventions:
* grid cells are addressed by `Pos = ℕ × ℕ` and a grid is `Pos → Option WorldObj`
  (`none` = empty cell, mirroring `Grid.get` returning `None`);
* rewards are `ℚ` (the code only stores the literal `0.1`, never computes with it);
* Python attribute errors (reading `.is_open` on `None` or on an object without
  the attribute) are modelled by `Option`-valued results, `none` meaning a crash.
-/

/-! ## Definitions: the shallow embedding -/

abbrev Pos := ℕ × ℕ

inductive WColor : Type
  | yellow
  | red
  | green
  | blue
  | purple
  | grey
deriving DecidableEq, Repr

/-- World-object variants named in the source file (`Door`, `Key`, `Goal`, `Wall`).
`door` carries color, `is_open` and `is_locked`; `Door("yellow", is_locked=True)`
is `door .yellow false true`. -/
inductive WorldObj : Type
  | wall : WorldObj
  | goal : WorldObj
  | key : WColor → WorldObj
  | door : WColor → Bool → Bool → WorldObj
deriving DecidableEq, Repr

abbrev GridF := Pos → Option WorldObj

/-- Python attribute probe `wrld_obj.is_open`: only `Door` defines the attribute,
so the probe on any other object is an `AttributeError`, modelled by `none`. -/
def isOpenAttr : WorldObj → Option Bool
  | .door _ o _ => some o
  | _ => none

/-- Reading `self.grid.get(*pos)` followed by `.is_open`: `none` models the crash on an
empty cell (`AttributeError: NoneType has no attribute is_open`) as well as on a
non-door object. -/
def cellOpen (c : Option WorldObj) : Option Bool :=
  c.bind isOpenAttr

/-- The four milestone positions cached by `_gen_grid`, listed in the priority
order used by the `next_skill` scan. -/
structure Milestones : Type where
  yellow_key_pos : Pos
  first_yellow_door_pos : Pos
  red_key_pos : Pos
  first_red_door_pos : Pos
deriving DecidableEq, Repr

/-- The literal list `[self.yellow_key_pos, self.first_yellow_door_pos,
self.red_key_pos, self.first_red_door_pos]` from the `next_skill` scan. -/
def milestoneList (ms : Milestones) : List Pos :=
  [ms.yellow_key_pos, ms.first_yellow_door_pos, ms.red_key_pos, ms.first_red_door_pos]

/-- Achievement map plus the running `reward` local of `step`.  The achievement
map is the `defaultdict(lambda: False)` keyed by position. -/
@[ext]
structure TrackSt : Type where
  unlocked : Pos → Bool
  reward : ℚ

/-- Translation of `self.unlocked_achievement[pos] = True`. -/
def setUnlocked (u : Pos → Bool) (p : Pos) : Pos → Bool :=
  fun q => if q = p then true else u q

/-- Body of the first loop of `ContinuousDoorsEnv.step`: for a key position, if
its flag is unset and the cell is now empty, set the flag and overwrite the
reward with `0.1`. -/
def keyCheck (g : GridF) (st : TrackSt) (pos : Pos) : TrackSt :=
  if st.unlocked pos then st
  else if g pos = none then ⟨setUnlocked st.unlocked pos, 1/10⟩
  else st

/-- Body of the second loop of `ContinuousDoorsEnv.step`: for a door position, if
its flag is unset, read `grid.get(pos).is_open` (crash = `none` when the cell has
no such attribute) and on `true` set the flag and overwrite the reward with
`0.1`. -/
def doorCheck (g : GridF) (st : TrackSt) (pos : Pos) : Option TrackSt :=
  if st.unlocked pos then some st
  else
    match cellOpen (g pos) with
    | none => none
    | some o => if o then some ⟨setUnlocked st.unlocked pos, 1/10⟩ else some st

/-- The `next_skill` scan: index of the first position whose flag is unset, or
the length of the list when every flag is set (the `len(...)` fallback). -/
def firstUnset (u : Pos → Bool) : List Pos → ℕ
  | [] => 0
  | p :: rest => if u p then firstUnset u rest + 1 else 0

/-- Value of `info["next_skill"]` as computed at the end of `step` (the base `info` dict
carries no `next_skill` key, so the scan or the fallback always writes it). -/
def nextSkill (ms : Milestones) (u : Pos → Bool) : ℕ :=
  firstUnset u (milestoneList ms)

/-- The milestone-tracking tail of `ContinuousDoorsEnv.step`, translated loop by
loop: `g` is `self.grid` after the framework step, `u` the achievement map and
`reward` the base reward returned by `super().step(action)`.  The result is the
achievement map, the returned reward and `info["next_skill"]`; `none` models the
uncaught `AttributeError` in the door loop. -/
def stepTracker (g : GridF) (ms : Milestones) (u : Pos → Bool) (reward : ℚ) :
    Option ((Pos → Bool) × ℚ × ℕ) :=
  let st1 := List.foldl (keyCheck g) ⟨u, reward⟩ [ms.yellow_key_pos, ms.red_key_pos]
  let st2o := List.foldl (fun acc pos => acc.bind fun st => doorCheck g st pos)
    (some st1) [ms.first_yellow_door_pos, ms.first_red_door_pos]
  st2o.map fun st2 => (st2.unlocked, st2.reward, nextSkill ms st2.unlocked)

/-- Modelled from the spec: the same four checks evaluated in the milestone
priority order `[yellow_key, first_yellow_door, red_key, first_red_door]`
(the source interleaves them as keys first, then doors); used to compare the
source evaluation order against the order the spec describes. -/
def stepTrackerSpecOrder (g : GridF) (ms : Milestones) (u : Pos → Bool) (reward : ℚ) :
    Option ((Pos → Bool) × ℚ × ℕ) :=
  let st1 := keyCheck g ⟨u, reward⟩ ms.yellow_key_pos
  (doorCheck g st1 ms.first_yellow_door_pos).bind fun st2 =>
    let st3 := keyCheck g st2 ms.red_key_pos
    (doorCheck g st3 ms.first_red_door_pos).map fun st4 =>
      (st4.unlocked, st4.reward, nextSkill ms st4.unlocked)

/-- Trigger condition of a key milestone, relative to a given achievement map:
flag unset and the key's spawn cell empty. -/
def trigKey (g : GridF) (u : Pos → Bool) (p : Pos) : Bool :=
  !u p && decide (g p = none)

/-- Trigger condition of a door milestone, relative to a given achievement map:
flag unset and the door at the cached position open. -/
def trigDoor (g : GridF) (u : Pos → Bool) (p : Pos) : Bool :=
  !u p && decide (cellOpen (g p) = some true)

/-- Some milestone newly triggers this step (conditions read against the
achievement map as it was when `step` was entered). -/
def anyTrig (g : GridF) (ms : Milestones) (u : Pos → Bool) : Bool :=
  trigKey g u ms.yellow_key_pos || trigDoor g u ms.first_yellow_door_pos ||
    trigKey g u ms.red_key_pos || trigDoor g u ms.first_red_door_pos

/-- Number of milestones that newly trigger this step. -/
def trigCount (g : GridF) (ms : Milestones) (u : Pos → Bool) : ℕ :=
  (if trigKey g u ms.yellow_key_pos then 1 else 0) +
    (if trigDoor g u ms.first_yellow_door_pos then 1 else 0) +
    (if trigKey g u ms.red_key_pos then 1 else 0) +
    (if trigDoor g u ms.first_red_door_pos then 1 else 0)

/-- Fixture for the tracker witnesses: a grid in which the yellow key has just
been collected (its cell is empty) and the first yellow door stands open, so
two milestones trigger in the same step. -/
def wGridTwo : GridF := fun q =>
  if q = (2, 1) then some (.door .yellow true false)
  else if q = (4, 1) then some (.door .red false true)
  else if q = (1, 2) then some (.key .red)
  else none

/-- Fixture: milestone positions as cached by an 8×8 layout with door row 1. -/
def wMs : Milestones := ⟨(1, 1), (2, 1), (1, 2), (4, 1)⟩

/-- Fixture: the all-false achievement map of a fresh episode. -/
def wU0 : Pos → Bool := fun _ => false

/-- The milestone flag with scan index `i` (indices past 3 never block the
scan, matching the `len(...)` fallback). -/
def flagAt (ms : Milestones) (u : Pos → Bool) : ℕ → Bool
  | 0 => u ms.yellow_key_pos
  | 1 => u ms.first_yellow_door_pos
  | 2 => u ms.red_key_pos
  | 3 => u ms.first_red_door_pos
  | _ => true

/-- An episode: iterate the tracker over the per-step inputs (the post-physics
grid snapshot and the base reward of each framework step).  Each output entry
records the achievement map after the step, the returned reward and
`info["next_skill"]`. -/
def trackerRun (ms : Milestones) : (Pos → Bool) → List (GridF × ℚ) →
    Option (List ((Pos → Bool) × ℚ × ℕ))
  | _, [] => some []
  | u, (g, b) :: rest =>
    match stepTracker g ms u b with
    | none => none
    | some (u2, r, k) => (trackerRun ms u2 rest).map fun outs => (u2, r, k) :: outs

/-- Fixture: a two-step episode on `wGridTwo`: the first step triggers the
yellow-key and first-yellow-door milestones, the second triggers nothing. -/
def wRun : List (GridF × ℚ) := [(wGridTwo, 0), (wGridTwo, 1)]

/-- Fixture: the achievement map after the first step of `wRun`. -/
def wU1 : Pos → Bool := setUnlocked (setUnlocked wU0 (1, 1)) (2, 1)

/-- Fixture: the outputs of the `wRun` episode. -/
def wOuts : List ((Pos → Bool) × ℚ × ℕ) := [(wU1, 1/10, 2), (wU1, 1, 2)]

/-- Translation of `int(2 + (width - 8) / 2)`, faithful on the supported domain of even widths
`W ≥ 8` (there the Python float division is exact and non-negative). -/
def splitIdx (W : ℕ) : ℕ := 2 + (W - 8) / 2

def emptyGrid : GridF := fun _ => none

/-- Translation of `self.put_obj(obj, x, y)` / `self.grid.set(x, y, obj)`. -/
def putObj (g : GridF) (p : Pos) (o : WorldObj) : GridF :=
  fun q => if q = p then some o else g q

/-- Modelled from the spec: `Grid.wall_rect(0, 0, width, height)` draws the
bordering wall around the full W×H rectangle. -/
def wallRect (g : GridF) (W H : ℕ) : GridF :=
  fun q =>
    if ((q.1 = 0 ∨ q.1 = W - 1) ∧ q.2 < H) ∨ ((q.2 = 0 ∨ q.2 = H - 1) ∧ q.1 < W)
    then some .wall else g q

/-- Modelled from the spec: `Grid.vert_wall(x, 0)` fills column `x` with wall
for the full height. -/
def vertWall (g : GridF) (x H : ℕ) : GridF :=
  fun q => if q.1 = x ∧ q.2 < H then some .wall else g q

/-- The grid state at the point of the `assert width % 2 == 0` statement:
border walls drawn and the goal placed at `(width - 2, height - 2)`, no doors
or keys yet. -/
def gridBeforeAssert (W H : ℕ) : GridF :=
  putObj (wallRect emptyGrid W H) (W - 2, H - 2) .goal

/-- The grid after the four `vert_wall` columns and the four locked doors of
`_gen_grid` (`place_agent` touches only the agent state, never a grid cell);
`d` is the random `doorIdx`. -/
def gridWithDoors (W H d : ℕ) : GridF :=
  let s := splitIdx W
  let g2 := vertWall (vertWall (vertWall (vertWall (gridBeforeAssert W H) s H) (s + 1) H)
    (s + 2) H) (s + 3) H
  let g3 := putObj g2 (s, d) (.door .yellow false true)
  let g4 := putObj g3 (s + 1, d) (.door .yellow false true)
  let g5 := putObj g4 (s + 2, d) (.door .red false true)
  putObj g5 (s + 3, d) (.door .yellow false true)

/-- The final grid of `_gen_grid`: the yellow key then the red key placed at
the positions `yk`, `rk` returned by the two `place_obj` calls. -/
def genGridF (W H d : ℕ) (yk rk : Pos) : GridF :=
  putObj (putObj (gridWithDoors W H d) yk (.key .yellow)) rk (.key .red)

/-- Translation of `_gen_grid` including the `assert width % 2 == 0`: `none`
models the failed assertion; on success it yields the grid and the four cached
milestone positions.  The random draws of the framework (`doorIdx` from
`_rand_int` and the two `place_obj` results) enter as parameters `d`, `yk`,
`rk`. -/
def genGridChecked (W H d : ℕ) (yk rk : Pos) : Option (GridF × Milestones) :=
  if W % 2 = 0 then
    some (genGridF W H d yk rk, ⟨yk, (splitIdx W, d), rk, (splitIdx W + 2, d)⟩)
  else none

structure EnvState : Type where
  grid : GridF
  unlocked : Pos → Bool
  yellow_key_pos : Pos
  red_key_pos : Pos
  first_yellow_door_pos : Pos
  first_red_door_pos : Pos

def EnvState.milestones (st : EnvState) : Milestones :=
  ⟨st.yellow_key_pos, st.first_yellow_door_pos, st.red_key_pos, st.first_red_door_pos⟩

/-- Translation of `ContinuousDoorsEnv.step`.  `super().step(action)` belongs
to the external framework, so its outputs (observation, reward, terminated,
truncated) are parameters, and `st.grid` is the grid after that framework
step; the `info` dict is represented by the `next_skill` value the method
writes into it. -/
def stepEnv {Ob : Type} (st : EnvState) (obs : Ob) (reward : ℚ)
    (terminated truncated : Bool) :
    Option (EnvState × Ob × ℚ × Bool × Bool × ℕ) :=
  match stepTracker st.grid st.milestones st.unlocked reward with
  | none => none
  | some (u2, r, k) =>
      some ({ st with unlocked := u2 }, obs, r, terminated, truncated, k)

/-- Translation of `ContinuousDoorsEnv.reset`: first the achievement map is
replaced by a fresh all-false `defaultdict`, then (modelled from the spec: the
framework's `reset` invokes `self._gen_grid` within the same call)
`_gen_grid` rebuilds the grid and recomputes the cached milestone positions. -/
def resetEnv (st : EnvState) (W H d : ℕ) (yk rk : Pos) : Option EnvState :=
  let cleared : EnvState := { st with unlocked := fun _ => false }
  match genGridChecked W H d yk rk with
  | none => none
  | some (g, ms) =>
      some { cleared with
        grid := g
        yellow_key_pos := ms.yellow_key_pos
        red_key_pos := ms.red_key_pos
        first_yellow_door_pos := ms.first_yellow_door_pos
        first_red_door_pos := ms.first_red_door_pos }

/-- Fixture: an environment state at the end of an episode, every flag set. -/
def wStPre : EnvState := ⟨emptyGrid, fun _ => true, (0, 0), (0, 0), (0, 0), (0, 0)⟩

/-- Fixture: the state produced by `reset` on an 8×8 layout with door row 1 and
key spawns `(1,1)`, `(1,2)`. -/
def wStPost : EnvState :=
  ⟨genGridF 8 8 1 (1, 1) (1, 2), fun _ => false, (1, 1), (1, 2), (2, 1), (4, 1)⟩

/-- Fixture: a grid in which nothing triggers — both key cells still hold keys
and both tracked doors are closed. -/
def wGridNo : GridF := fun q =>
  if q = (1, 1) then some (.key .yellow)
  else if q = (1, 2) then some (.key .red)
  else some (.door .yellow false true)

/-- Fixture: environment state for the pass-through witness. -/
def wStepSt : EnvState := ⟨wGridNo, wU0, (1, 1), (1, 2), (2, 1), (4, 1)⟩

/-- Modelled from the spec: the framework primitive `self._rand_int(lo, hi)`
draws uniformly at random from the half-open range `[lo, hi)`; this is its set
of possible outcomes. -/
def randIntSupport (lo hi : ℕ) : Finset ℕ := Finset.Ico lo hi

/-- Modelled from the spec: the probability that the uniform draw
`_rand_int(lo, hi)` returns `n`. -/
def randIntProb (lo hi n : ℕ) : ℚ :=
  if n ∈ Finset.Ico lo hi then 1 / ((hi - lo : ℕ) : ℚ) else 0

/-- The door-row draw of `_gen_grid`: `doorIdx = self._rand_int(1, height - 2)`. -/
def doorIdxSupport (H : ℕ) : Finset ℕ := randIntSupport 1 (H - 2)

/-- Probability mass of the door-row draw. -/
def doorIdxProb (H n : ℕ) : ℚ := randIntProb 1 (H - 2) n

/-- Modelled from the spec: how one framework step may change a single grid
cell.  Cells are unchanged, except that a key may be collected (pickup removes
it from the grid; the drop action is unused) and a door may change its
open/locked state when toggled.  Doors are never removed or recoloured. -/
inductive cellStep : Option WorldObj → Option WorldObj → Prop
  | same (c : Option WorldObj) : cellStep c c
  | pickupKey (c : WColor) : cellStep (some (.key c)) none
  | toggleDoor (c : WColor) (o l o2 l2 : Bool) :
      cellStep (some (.door c o l)) (some (.door c o2 l2))

/-- Modelled from the spec: one framework step changes every cell according to
`cellStep`. -/
def gridStep (g g2 : GridF) : Prop := ∀ p, cellStep (g p) (g2 p)

/-- A door object is present at `p`. -/
def DoorAt (g : GridF) (p : Pos) : Prop := ∃ c o l, g p = some (.door c o l)

/-! ## Lemmas and claim theorems -/

lemma keyCheck_unlocked (g : GridF) (st : TrackSt) (p q : Pos) :
    (keyCheck g st p).unlocked q =
      (st.unlocked q || (decide (q = p) && trigKey g st.unlocked p)) := by
  unfold keyCheck trigKey setUnlocked
  by_cases hp : st.unlocked p
  · simp [hp]
  · by_cases hg : g p = none
    · by_cases hq : q = p
      · subst hq; simp [hp, hg]
      · simp [hp, hg, hq]
    · simp [hp, hg]

lemma keyCheck_reward (g : GridF) (st : TrackSt) (p : Pos) :
    (keyCheck g st p).reward =
      (if trigKey g st.unlocked p then (1/10 : ℚ) else st.reward) := by
  unfold keyCheck trigKey
  by_cases hp : st.unlocked p
  · simp [hp]
  · by_cases hg : g p = none <;> simp [hp, hg]

lemma doorCheck_eq_none (g : GridF) (st : TrackSt) (p : Pos) :
    doorCheck g st p = none ↔ (st.unlocked p = false ∧ cellOpen (g p) = none) := by
  unfold doorCheck
  by_cases hp : st.unlocked p
  · simp [hp]
  · rcases ho : cellOpen (g p) with _ | b
    · simp [hp, ho]
    · rcases b <;> simp [hp, ho]

lemma doorCheck_isSome (g : GridF) (st : TrackSt) (p : Pos)
    (h : st.unlocked p = true ∨ cellOpen (g p) ≠ none) :
    (doorCheck g st p).isSome = true := by
  rcases hd : doorCheck g st p with _ | st2
  · rw [doorCheck_eq_none] at hd
    rcases h with h | h
    · rw [hd.1] at h; cases h
    · exact absurd hd.2 h
  · rfl

lemma doorCheck_unlocked (g : GridF) (st st2 : TrackSt) (p : Pos)
    (h : doorCheck g st p = some st2) (q : Pos) :
    st2.unlocked q = (st.unlocked q || (decide (q = p) && trigDoor g st.unlocked p)) := by
  unfold doorCheck at h
  by_cases hp : st.unlocked p
  · simp [hp] at h
    subst h; simp [trigDoor, hp]
  · rcases ho : cellOpen (g p) with _ | b
    · simp [hp, ho] at h
    · rcases b
      · simp [hp, ho] at h
        subst h; simp [trigDoor, hp, ho]
      · simp [hp, ho] at h
        subst h
        unfold trigDoor setUnlocked
        by_cases hq : q = p
        · subst hq; simp [hp, ho]
        · simp [hp, ho, hq]

lemma doorCheck_reward (g : GridF) (st st2 : TrackSt) (p : Pos)
    (h : doorCheck g st p = some st2) :
    st2.reward = (if trigDoor g st.unlocked p then (1/10 : ℚ) else st.reward) := by
  unfold doorCheck at h
  by_cases hp : st.unlocked p
  · simp [hp] at h
    subst h; simp [trigDoor, hp]
  · rcases ho : cellOpen (g p) with _ | b
    · simp [hp, ho] at h
    · rcases b
      · simp [hp, ho] at h
        subst h; simp [trigDoor, hp, ho]
      · simp [hp, ho] at h
        subst h; simp [trigDoor, hp, ho]

lemma stepTracker_char (g : GridF) (ms : Milestones) (u : Pos → Bool) (b : ℚ)
    (u2 : Pos → Bool) (r : ℚ) (k : ℕ)
    (hkk : ms.yellow_key_pos ≠ ms.red_key_pos)
    (h1 : ms.yellow_key_pos ≠ ms.first_yellow_door_pos)
    (h2 : ms.yellow_key_pos ≠ ms.first_red_door_pos)
    (h3 : ms.red_key_pos ≠ ms.first_yellow_door_pos)
    (h4 : ms.red_key_pos ≠ ms.first_red_door_pos)
    (hdd : ms.first_yellow_door_pos ≠ ms.first_red_door_pos)
    (h : stepTracker g ms u b = some (u2, r, k)) :
    (∀ q, u2 q =
      (u q || (decide (q = ms.yellow_key_pos) && trigKey g u ms.yellow_key_pos)
        || (decide (q = ms.red_key_pos) && trigKey g u ms.red_key_pos)
        || (decide (q = ms.first_yellow_door_pos) && trigDoor g u ms.first_yellow_door_pos)
        || (decide (q = ms.first_red_door_pos) && trigDoor g u ms.first_red_door_pos))) ∧
    r = (if anyTrig g ms u then (1/10 : ℚ) else b) ∧
    k = nextSkill ms u2 := by
  simp only [stepTracker, List.foldl, Option.some_bind] at h
  set stB := keyCheck g (keyCheck g ⟨u, b⟩ ms.yellow_key_pos) ms.red_key_pos with hB
  rcases hC : doorCheck g stB ms.first_yellow_door_pos with _ | stC
  · rw [hC] at h; simp at h
  rw [hC] at h
  simp only [Option.some_bind] at h
  rcases hD : doorCheck g stC ms.first_red_door_pos with _ | stD
  · rw [hD] at h; simp at h
  rw [hD] at h
  simp only [Option.map_some', Option.some.injEq, Prod.mk.injEq] at h
  obtain ⟨hu2, hr, hk⟩ := h
  -- flags after the two key checks
  have hBu : ∀ q, stB.unlocked q =
      (u q || (decide (q = ms.yellow_key_pos) && trigKey g u ms.yellow_key_pos)
        || (decide (q = ms.red_key_pos) && trigKey g u ms.red_key_pos)) := by
    intro q
    rw [hB, keyCheck_unlocked, keyCheck_unlocked]
    have hA : (keyCheck g ⟨u, b⟩ ms.yellow_key_pos).unlocked ms.red_key_pos =
        u ms.red_key_pos := by
      rw [keyCheck_unlocked]; simp [Ne.symm hkk]
    have ht : trigKey g (keyCheck g ⟨u, b⟩ ms.yellow_key_pos).unlocked ms.red_key_pos =
        trigKey g u ms.red_key_pos := by
      unfold trigKey; rw [hA]
    rw [ht]
  have hBr : stB.reward =
      (if trigKey g u ms.red_key_pos then (1/10 : ℚ)
        else if trigKey g u ms.yellow_key_pos then (1/10 : ℚ) else b) := by
    rw [hB, keyCheck_reward]
    have hA : (keyCheck g ⟨u, b⟩ ms.yellow_key_pos).unlocked ms.red_key_pos =
        u ms.red_key_pos := by
      rw [keyCheck_unlocked]; simp [Ne.symm hkk]
    have ht : trigKey g (keyCheck g ⟨u, b⟩ ms.yellow_key_pos).unlocked ms.red_key_pos =
        trigKey g u ms.red_key_pos := by
      unfold trigKey; rw [hA]
    rw [ht, keyCheck_reward]
  -- the first door check reads the original flag
  have hBfy : stB.unlocked ms.first_yellow_door_pos = u ms.first_yellow_door_pos := by
    rw [hBu]; simp [Ne.symm h1, Ne.symm h3]
  have htC : trigDoor g stB.unlocked ms.first_yellow_door_pos =
      trigDoor g u ms.first_yellow_door_pos := by
    unfold trigDoor; rw [hBfy]
  have hCu : ∀ q, stC.unlocked q =
      (stB.unlocked q ||
        (decide (q = ms.first_yellow_door_pos) && trigDoor g u ms.first_yellow_door_pos)) := by
    intro q
    rw [doorCheck_unlocked g stB stC _ hC, htC]
  have hCr : stC.reward =
      (if trigDoor g u ms.first_yellow_door_pos then (1/10 : ℚ) else stB.reward) := by
    rw [doorCheck_reward g stB stC _ hC, htC]
  -- the second door check also reads the original flag
  have hCfr : stC.unlocked ms.first_red_door_pos = u ms.first_red_door_pos := by
    rw [hCu, hBu]; simp [Ne.symm h2, Ne.symm h4, Ne.symm hdd]
  have htD : trigDoor g stC.unlocked ms.first_red_door_pos =
      trigDoor g u ms.first_red_door_pos := by
    unfold trigDoor; rw [hCfr]
  have hDu : ∀ q, stD.unlocked q =
      (stC.unlocked q ||
        (decide (q = ms.first_red_door_pos) && trigDoor g u ms.first_red_door_pos)) := by
    intro q
    rw [doorCheck_unlocked g stC stD _ hD, htD]
  have hDr : stD.reward =
      (if trigDoor g u ms.first_red_door_pos then (1/10 : ℚ) else stC.reward) := by
    rw [doorCheck_reward g stC stD _ hD, htD]
  refine ⟨?_, ?_, ?_⟩
  · intro q
    rw [← hu2, hDu, hCu, hBu]
  · rw [← hr, hDr, hCr, hBr]
    unfold anyTrig
    cases hb1 : trigKey g u ms.yellow_key_pos <;>
      cases hb2 : trigDoor g u ms.first_yellow_door_pos <;>
        cases hb3 : trigKey g u ms.red_key_pos <;>
          cases hb4 : trigDoor g u ms.first_red_door_pos <;> simp
  · rw [← hk, ← hu2]

/-- Successful tracker steps decompose into the two key checks followed by the
two door checks, both of which returned `some`. -/
lemma stepTracker_decomp (g : GridF) (ms : Milestones) (u : Pos → Bool) (b : ℚ)
    (out : (Pos → Bool) × ℚ × ℕ) (h : stepTracker g ms u b = some out) :
    ∃ stC stD : TrackSt,
      doorCheck g (keyCheck g (keyCheck g ⟨u, b⟩ ms.yellow_key_pos) ms.red_key_pos)
        ms.first_yellow_door_pos = some stC ∧
      doorCheck g stC ms.first_red_door_pos = some stD ∧
      out = (stD.unlocked, stD.reward, nextSkill ms stD.unlocked) := by
  simp only [stepTracker, List.foldl, Option.some_bind] at h
  rcases hC : doorCheck g (keyCheck g (keyCheck g ⟨u, b⟩ ms.yellow_key_pos) ms.red_key_pos)
      ms.first_yellow_door_pos with _ | stC
  · rw [hC] at h; simp at h
  rw [hC] at h
  simp only [Option.some_bind] at h
  rcases hD : doorCheck g stC ms.first_red_door_pos with _ | stD
  · rw [hD] at h; simp at h
  rw [hD] at h
  simp only [Option.map_some', Option.some.injEq] at h
  exact ⟨stC, stD, rfl, hD, h.symm⟩

lemma setUnlocked_comm (u : Pos → Bool) (p q : Pos) :
    setUnlocked (setUnlocked u p) q = setUnlocked (setUnlocked u q) p := by
  funext x
  unfold setUnlocked
  by_cases hp : x = p <;> by_cases hq : x = q <;> simp [hp, hq]

/-- A key check and a door check at distinct positions commute: deferring the
key check past the door check changes neither the crash behaviour, the final
achievement map, nor the final reward. -/
lemma keyCheck_doorCheck_comm (g : GridF) (st : TrackSt) (p q : Pos) (hpq : p ≠ q) :
    doorCheck g (keyCheck g st p) q =
      Option.map (fun st2 => keyCheck g st2 p) (doorCheck g st q) := by
  have hku : (keyCheck g st p).unlocked q = st.unlocked q := by
    rw [keyCheck_unlocked]; simp [Ne.symm hpq]
  have hsu : setUnlocked st.unlocked q p = st.unlocked p := by
    simp [setUnlocked, hpq]
  unfold doorCheck
  rw [hku]
  by_cases hq : st.unlocked q
  · simp [hq]
  · simp only [hq, if_false, Bool.false_eq_true]
    rcases ho : cellOpen (g q) with _ | o
    · simp
    · rcases o
      · simp
      · simp only [if_true]
        apply congrArg some
        by_cases hp : st.unlocked p
        · simp [keyCheck, hp, hsu]
        · by_cases hg : g p = none
          · simp only [keyCheck, hp, hsu, if_false, hg, if_true, Bool.false_eq_true]
            apply TrackSt.ext
            · exact setUnlocked_comm st.unlocked p q
            · rfl
          · simp [keyCheck, hp, hsu, hg]

/-- Claim C1: the milestone checks are behaviourally evaluated in the priority
order `[yellow_key, first_yellow_door, red_key, first_red_door]` — the source's
keys-then-doors interleaving computes exactly the same result as the
priority-order evaluation — and when two milestones newly trigger in the same
step the later check's write of `0.1` overwrites the earlier one's, so the
returned reward is that later milestone's `0.1` (never a sum). -/
theorem claim_C1_priority_order (g : GridF) (ms : Milestones) (u : Pos → Bool) (b : ℚ)
    (hkk : ms.yellow_key_pos ≠ ms.red_key_pos)
    (h1 : ms.yellow_key_pos ≠ ms.first_yellow_door_pos)
    (h2 : ms.yellow_key_pos ≠ ms.first_red_door_pos)
    (h3 : ms.red_key_pos ≠ ms.first_yellow_door_pos)
    (h4 : ms.red_key_pos ≠ ms.first_red_door_pos)
    (hdd : ms.first_yellow_door_pos ≠ ms.first_red_door_pos) :
    stepTracker g ms u b = stepTrackerSpecOrder g ms u b ∧
      (∀ u2 r k, stepTracker g ms u b = some (u2, r, k) →
        2 ≤ trigCount g ms u → r = 1/10) := by
  constructor
  · have hcomm := keyCheck_doorCheck_comm g (keyCheck g ⟨u, b⟩ ms.yellow_key_pos)
      ms.red_key_pos ms.first_yellow_door_pos h3
    simp only [stepTracker, stepTrackerSpecOrder, List.foldl, Option.some_bind]
    rw [hcomm]
    rcases doorCheck g (keyCheck g ⟨u, b⟩ ms.yellow_key_pos) ms.first_yellow_door_pos with
      _ | st2
    · simp
    · simp [Option.map_bind']
  · intro u2 r k h hcount
    obtain ⟨-, hr, -⟩ := stepTracker_char g ms u b u2 r k hkk h1 h2 h3 h4 hdd h
    rw [hr]
    unfold anyTrig
    unfold trigCount at hcount
    cases hb1 : trigKey g u ms.yellow_key_pos <;>
      cases hb2 : trigDoor g u ms.first_yellow_door_pos <;>
        cases hb3 : trigKey g u ms.red_key_pos <;>
          cases hb4 : trigDoor g u ms.first_red_door_pos <;>
      simp_all

theorem claim_C1_priority_order_witness :
    (wMs.yellow_key_pos ≠ wMs.red_key_pos ∧
      wMs.yellow_key_pos ≠ wMs.first_yellow_door_pos ∧
      wMs.yellow_key_pos ≠ wMs.first_red_door_pos ∧
      wMs.red_key_pos ≠ wMs.first_yellow_door_pos ∧
      wMs.red_key_pos ≠ wMs.first_red_door_pos ∧
      wMs.first_yellow_door_pos ≠ wMs.first_red_door_pos) ∧
    2 ≤ trigCount wGridTwo wMs wU0 ∧
    (stepTracker wGridTwo wMs wU0 0 = stepTrackerSpecOrder wGridTwo wMs wU0 0 ∧
      (∀ u2 r k, stepTracker wGridTwo wMs wU0 0 = some (u2, r, k) →
        2 ≤ trigCount wGridTwo wMs wU0 → r = 1/10)) :=
  ⟨⟨by decide, by decide, by decide, by decide, by decide, by decide⟩, by decide,
    claim_C1_priority_order wGridTwo wMs wU0 0 (by decide) (by decide) (by decide)
      (by decide) (by decide) (by decide)⟩

/-- Claim C2: on every step, each key milestone flag becomes set exactly when it
was set before or its flag was unset and the key's cached spawn cell is now
empty; each door milestone flag becomes set exactly when it was set before or
its flag was unset and the door at the cached position is open; and the
returned reward is exactly `0.1` (never additive) whenever at least one
milestone newly triggers, and the base reward otherwise. -/
theorem claim_C2_milestone_semantics (g : GridF) (ms : Milestones) (u : Pos → Bool) (b : ℚ)
    (u2 : Pos → Bool) (r : ℚ) (k : ℕ)
    (hkk : ms.yellow_key_pos ≠ ms.red_key_pos)
    (h1 : ms.yellow_key_pos ≠ ms.first_yellow_door_pos)
    (h2 : ms.yellow_key_pos ≠ ms.first_red_door_pos)
    (h3 : ms.red_key_pos ≠ ms.first_yellow_door_pos)
    (h4 : ms.red_key_pos ≠ ms.first_red_door_pos)
    (hdd : ms.first_yellow_door_pos ≠ ms.first_red_door_pos)
    (h : stepTracker g ms u b = some (u2, r, k)) :
    u2 ms.yellow_key_pos =
      (u ms.yellow_key_pos || (!u ms.yellow_key_pos && decide (g ms.yellow_key_pos = none))) ∧
    u2 ms.red_key_pos =
      (u ms.red_key_pos || (!u ms.red_key_pos && decide (g ms.red_key_pos = none))) ∧
    u2 ms.first_yellow_door_pos =
      (u ms.first_yellow_door_pos ||
        (!u ms.first_yellow_door_pos &&
          decide (cellOpen (g ms.first_yellow_door_pos) = some true))) ∧
    u2 ms.first_red_door_pos =
      (u ms.first_red_door_pos ||
        (!u ms.first_red_door_pos &&
          decide (cellOpen (g ms.first_red_door_pos) = some true))) ∧
    r = (if anyTrig g ms u then (1/10 : ℚ) else b) := by
  obtain ⟨hu2, hr, -⟩ := stepTracker_char g ms u b u2 r k hkk h1 h2 h3 h4 hdd h
  refine ⟨?_, ?_, ?_, ?_, hr⟩
  · rw [hu2]; simp [trigKey, h1, h2, hkk]
  · rw [hu2]; simp [trigKey, Ne.symm hkk, h3, h4]
  · rw [hu2]; simp [trigDoor, Ne.symm h1, Ne.symm h3, hdd]
  · rw [hu2]; simp [trigDoor, Ne.symm h2, Ne.symm h4, Ne.symm hdd]

theorem claim_C2_milestone_semantics_witness :
    stepTracker wGridTwo wMs wU0 0 =
      some (setUnlocked (setUnlocked wU0 (1, 1)) (2, 1), 1/10, 2) ∧
    (wU0 (1, 1) || (!wU0 (1, 1) && decide (wGridTwo (1, 1) = none))) = true ∧
    ((setUnlocked (setUnlocked wU0 (1, 1)) (2, 1)) (1, 1) =
      (wU0 (1, 1) || (!wU0 (1, 1) && decide (wGridTwo (1, 1) = none))) ∧
    (setUnlocked (setUnlocked wU0 (1, 1)) (2, 1)) (1, 2) =
      (wU0 (1, 2) || (!wU0 (1, 2) && decide (wGridTwo (1, 2) = none))) ∧
    (setUnlocked (setUnlocked wU0 (1, 1)) (2, 1)) (2, 1) =
      (wU0 (2, 1) || (!wU0 (2, 1) && decide (cellOpen (wGridTwo (2, 1)) = some true))) ∧
    (setUnlocked (setUnlocked wU0 (1, 1)) (2, 1)) (4, 1) =
      (wU0 (4, 1) || (!wU0 (4, 1) && decide (cellOpen (wGridTwo (4, 1)) = some true))) ∧
    (1/10 : ℚ) = (if anyTrig wGridTwo wMs wU0 then (1/10 : ℚ) else 0)) :=
  ⟨rfl, by decide,
    claim_C2_milestone_semantics wGridTwo wMs wU0 0
      (setUnlocked (setUnlocked wU0 (1, 1)) (2, 1)) (1/10) 2
      (by decide) (by decide) (by decide) (by decide) (by decide) (by decide) rfl⟩

lemma nextSkill_eq (ms : Milestones) (u : Pos → Bool) :
    nextSkill ms u =
      if u ms.yellow_key_pos then
        if u ms.first_yellow_door_pos then
          if u ms.red_key_pos then
            if u ms.first_red_door_pos then 4 else 3
          else 2
        else 1
      else 0 := by
  simp only [nextSkill, milestoneList, firstUnset]
  split_ifs <;> rfl

lemma nextSkill_le_four (ms : Milestones) (u : Pos → Bool) : nextSkill ms u ≤ 4 := by
  rw [nextSkill_eq]
  split_ifs <;> omega

lemma nextSkill_flag_bounds (ms : Milestones) (u : Pos → Bool) :
    (0 < nextSkill ms u → u ms.yellow_key_pos = true) ∧
    (1 < nextSkill ms u → u ms.first_yellow_door_pos = true) ∧
    (2 < nextSkill ms u → u ms.red_key_pos = true) ∧
    (3 < nextSkill ms u → u ms.first_red_door_pos = true) ∧
    (nextSkill ms u = 0 → u ms.yellow_key_pos = false) ∧
    (nextSkill ms u = 1 → u ms.first_yellow_door_pos = false) ∧
    (nextSkill ms u = 2 → u ms.red_key_pos = false) ∧
    (nextSkill ms u = 3 → u ms.first_red_door_pos = false) := by
  rw [nextSkill_eq]
  cases hb1 : u ms.yellow_key_pos <;>
    cases hb2 : u ms.first_yellow_door_pos <;>
      cases hb3 : u ms.red_key_pos <;>
        cases hb4 : u ms.first_red_door_pos <;>
    norm_num

lemma nextSkill_lt_flags (ms : Milestones) (u : Pos → Bool) :
    ∀ i, i < nextSkill ms u → flagAt ms u i = true := by
  intro i hi
  have hb := nextSkill_flag_bounds ms u
  have h4 := nextSkill_le_four ms u
  have hi3 : i ≤ 3 := by omega
  interval_cases i
  · exact hb.1 hi
  · exact hb.2.1 hi
  · exact hb.2.2.1 hi
  · exact hb.2.2.2.1 hi

lemma nextSkill_at_flag (ms : Milestones) (u : Pos → Bool) (h : nextSkill ms u < 4) :
    flagAt ms u (nextSkill ms u) = false := by
  have hb := nextSkill_flag_bounds ms u
  have h0 : nextSkill ms u = 0 ∨ nextSkill ms u = 1 ∨ nextSkill ms u = 2 ∨
      nextSkill ms u = 3 := by omega
  rcases h0 with h0 | h0 | h0 | h0 <;> rw [h0]
  · exact hb.2.2.2.2.1 h0
  · exact hb.2.2.2.2.2.1 h0
  · exact hb.2.2.2.2.2.2.1 h0
  · exact hb.2.2.2.2.2.2.2 h0

lemma nextSkill_mono (ms : Milestones) (u u2 : Pos → Bool)
    (h : ∀ p, u p = true → u2 p = true) : nextSkill ms u ≤ nextSkill ms u2 := by
  have h1 := h ms.yellow_key_pos
  have h2 := h ms.first_yellow_door_pos
  have h3 := h ms.red_key_pos
  have h4 := h ms.first_red_door_pos
  rw [nextSkill_eq, nextSkill_eq]
  split_ifs <;> first | omega | simp_all

/-- A successful tracker step never unsets a flag. -/
lemma stepTracker_mono (g : GridF) (ms : Milestones) (u : Pos → Bool) (b : ℚ)
    (u2 : Pos → Bool) (r : ℚ) (k : ℕ) (h : stepTracker g ms u b = some (u2, r, k)) :
    ∀ p, u p = true → u2 p = true := by
  obtain ⟨stC, stD, hC, hD, hout⟩ := stepTracker_decomp g ms u b _ h
  intro p hp
  have h1 : (keyCheck g (keyCheck g ⟨u, b⟩ ms.yellow_key_pos) ms.red_key_pos).unlocked p
      = true := by
    rw [keyCheck_unlocked, keyCheck_unlocked]
    simp [hp]
  have h2 : stC.unlocked p = true := by
    rw [doorCheck_unlocked g _ stC _ hC, h1]; rfl
  have h3 : stD.unlocked p = true := by
    rw [doorCheck_unlocked g _ stD _ hD, h2]; rfl
  have : u2 = stD.unlocked := congrArg Prod.fst hout
  rw [this, h3]

/-- The reported skill of a successful tracker step is the scan over the final
achievement map. -/
lemma stepTracker_skill (g : GridF) (ms : Milestones) (u : Pos → Bool) (b : ℚ)
    (u2 : Pos → Bool) (r : ℚ) (k : ℕ) (h : stepTracker g ms u b = some (u2, r, k)) :
    k = nextSkill ms u2 := by
  obtain ⟨stC, stD, hC, hD, hout⟩ := stepTracker_decomp g ms u b _ h
  have hu : u2 = stD.unlocked := congrArg Prod.fst hout
  have hk : k = nextSkill ms stD.unlocked := congrArg (fun x => x.2.2) hout
  rw [hk, hu]

lemma trackerRun_mono (ms : Milestones) :
    ∀ (inps : List (GridF × ℚ)) (u : Pos → Bool) (outs : List ((Pos → Bool) × ℚ × ℕ)),
      trackerRun ms u inps = some outs →
      (∀ p, u p = true → ∀ o ∈ outs, o.1 p = true) ∧
      List.Pairwise (fun a b : (Pos → Bool) × ℚ × ℕ =>
        ∀ p, a.1 p = true → b.1 p = true) outs := by
  intro inps
  induction inps with
  | nil =>
    intro u outs h
    simp only [trackerRun, Option.some.injEq] at h
    subst h
    simp
  | cons ib rest ih =>
    intro u outs h
    obtain ⟨g, b⟩ := ib
    simp only [trackerRun] at h
    rcases hst : stepTracker g ms u b with _ | out
    · rw [hst] at h; simp at h
    obtain ⟨u2, r, k⟩ := out
    rw [hst] at h
    simp only at h
    rcases hrun : trackerRun ms u2 rest with _ | outs2
    · rw [hrun] at h; simp at h
    rw [hrun] at h
    simp only [Option.map_some', Option.some.injEq] at h
    subst h
    obtain ⟨ih1, ih2⟩ := ih u2 outs2 hrun
    have hm := stepTracker_mono g ms u b u2 r k hst
    refine ⟨?_, ?_⟩
    · intro p hp o ho
      rcases List.mem_cons.mp ho with ho | ho
      · subst ho; exact hm p hp
      · exact ih1 p (hm p hp) o ho
    · exact List.Pairwise.cons (fun o ho p hp => ih1 p hp o ho) ih2

lemma trackerRun_entries (ms : Milestones) :
    ∀ (inps : List (GridF × ℚ)) (u : Pos → Bool) (outs : List ((Pos → Bool) × ℚ × ℕ)),
      trackerRun ms u inps = some outs →
      ∀ o ∈ outs, o.2.2 = nextSkill ms o.1 := by
  intro inps
  induction inps with
  | nil =>
    intro u outs h
    simp only [trackerRun, Option.some.injEq] at h
    subst h
    simp
  | cons ib rest ih =>
    intro u outs h
    obtain ⟨g, b⟩ := ib
    simp only [trackerRun] at h
    rcases hst : stepTracker g ms u b with _ | out
    · rw [hst] at h; simp at h
    obtain ⟨u2, r, k⟩ := out
    rw [hst] at h
    simp only at h
    rcases hrun : trackerRun ms u2 rest with _ | outs2
    · rw [hrun] at h; simp at h
    rw [hrun] at h
    simp only [Option.map_some', Option.some.injEq] at h
    subst h
    intro o ho
    rcases List.mem_cons.mp ho with ho | ho
    · subst ho
      exact stepTracker_skill g ms u b u2 r k hst
    · exact ih u2 outs2 hrun o ho

lemma pairwise_map_of_pairwise {α β : Type} (R : α → α → Prop) (S : β → β → Prop)
    (f : α → β) (l : List α) (hf : ∀ a ∈ l, ∀ b ∈ l, R a b → S (f a) (f b))
    (h : List.Pairwise R l) : List.Pairwise S (l.map f) := by
  induction l with
  | nil => simp
  | cons x xs ih =>
    cases h with
    | cons hx hxs =>
      simp only [List.map_cons]
      refine List.Pairwise.cons ?_
        (ih (fun a ha b hb hr => hf a (by simp [ha]) b (by simp [hb]) hr) hxs)
      intro y hy
      obtain ⟨a, ha, rfl⟩ := List.mem_map.mp hy
      exact hf x (by simp) a (by simp [ha]) (hx a ha)

/-- Claim C3: on every step of an episode, `info["next_skill"]` is the index of
the first unset flag of the post-step achievement map when scanning
`[yellow_key, first_yellow_door, red_key, first_red_door]` (4 when all four are
set), so it always lies in `{0, 1, 2, 3, 4}` and is non-decreasing over the
steps of one episode. -/
theorem claim_C3_next_skill (ms : Milestones) (u : Pos → Bool)
    (inps : List (GridF × ℚ)) (outs : List ((Pos → Bool) × ℚ × ℕ))
    (h : trackerRun ms u inps = some outs) :
    (∀ o ∈ outs, o.2.2 = nextSkill ms o.1 ∧ o.2.2 ≤ 4 ∧
      (∀ i, i < o.2.2 → flagAt ms o.1 i = true) ∧
      (o.2.2 < 4 → flagAt ms o.1 o.2.2 = false)) ∧
    List.Pairwise (· ≤ ·) (outs.map fun o => o.2.2) := by
  have hent := trackerRun_entries ms inps u outs h
  have hmono := (trackerRun_mono ms inps u outs h).2
  constructor
  · intro o ho
    have hk := hent o ho
    refine ⟨hk, ?_, ?_, ?_⟩
    · rw [hk]; exact nextSkill_le_four ms o.1
    · intro i hi
      rw [hk] at hi
      exact nextSkill_lt_flags ms o.1 i hi
    · intro hlt
      rw [hk] at hlt ⊢
      exact nextSkill_at_flag ms o.1 hlt
  · refine pairwise_map_of_pairwise _ _ _ _ ?_ hmono
    intro a ha b hb hr
    rw [hent a ha, hent b hb]
    exact nextSkill_mono ms a.1 b.1 hr

theorem claim_C3_next_skill_witness :
    trackerRun wMs wU0 wRun = some wOuts ∧
    ((∀ o ∈ wOuts, o.2.2 = nextSkill wMs o.1 ∧ o.2.2 ≤ 4 ∧
        (∀ i, i < o.2.2 → flagAt wMs o.1 i = true) ∧
        (o.2.2 < 4 → flagAt wMs o.1 o.2.2 = false)) ∧
      List.Pairwise (· ≤ ·) (wOuts.map fun o => o.2.2)) :=
  ⟨rfl, claim_C3_next_skill wMs wU0 wRun wOuts rfl⟩

/-- Claim C4: within one episode the achievement map is monotone — a flag set
by some step is still set after every later step — and a step in which every
milestone flag is already set leaves the achievement map and the base reward
untouched, so each milestone's `0.1` bonus is granted at most once per episode
even when the triggering condition persists. -/
theorem claim_C4_monotone_idempotent (ms : Milestones) (u : Pos → Bool)
    (inps : List (GridF × ℚ)) (outs : List ((Pos → Bool) × ℚ × ℕ))
    (h : trackerRun ms u inps = some outs) :
    (∀ p, u p = true → ∀ o ∈ outs, o.1 p = true) ∧
    List.Pairwise (fun a b : (Pos → Bool) × ℚ × ℕ =>
      ∀ p, a.1 p = true → b.1 p = true) outs ∧
    (∀ (g : GridF) (b : ℚ) (u2 u3 : Pos → Bool) (r : ℚ) (k : ℕ),
      (∀ p ∈ milestoneList ms, u2 p = true) →
      stepTracker g ms u2 b = some (u3, r, k) → r = b ∧ ∀ q, u3 q = u2 q) := by
  obtain ⟨hinit, hpair⟩ := trackerRun_mono ms inps u outs h
  refine ⟨hinit, hpair, ?_⟩
  intro g b u2 u3 r k hall hst
  have hyk : u2 ms.yellow_key_pos = true := hall _ (by simp [milestoneList])
  have hrk : u2 ms.red_key_pos = true := hall _ (by simp [milestoneList])
  have hfy : u2 ms.first_yellow_door_pos = true := hall _ (by simp [milestoneList])
  have hfr : u2 ms.first_red_door_pos = true := hall _ (by simp [milestoneList])
  have e1 : keyCheck g ⟨u2, b⟩ ms.yellow_key_pos = ⟨u2, b⟩ := by
    simp [keyCheck, hyk]
  have e2 : keyCheck g ⟨u2, b⟩ ms.red_key_pos = ⟨u2, b⟩ := by
    simp [keyCheck, hrk]
  have e3 : doorCheck g ⟨u2, b⟩ ms.first_yellow_door_pos = some ⟨u2, b⟩ := by
    simp [doorCheck, hfy]
  have e4 : doorCheck g ⟨u2, b⟩ ms.first_red_door_pos = some ⟨u2, b⟩ := by
    simp [doorCheck, hfr]
  have hred : stepTracker g ms u2 b = some (u2, b, nextSkill ms u2) := by
    simp only [stepTracker, List.foldl, e1, e2, Option.some_bind, e3, e4,
      Option.map_some']
  rw [hred] at hst
  simp only [Option.some.injEq, Prod.mk.injEq] at hst
  obtain ⟨hu, hr, -⟩ := hst
  exact ⟨hr.symm, fun q => by rw [hu]⟩

theorem claim_C4_monotone_idempotent_witness :
    trackerRun wMs wU0 wRun = some wOuts ∧
    ((∀ p, wU0 p = true → ∀ o ∈ wOuts, o.1 p = true) ∧
      List.Pairwise (fun a b : (Pos → Bool) × ℚ × ℕ =>
        ∀ p, a.1 p = true → b.1 p = true) wOuts ∧
      (∀ (g : GridF) (b : ℚ) (u2 u3 : Pos → Bool) (r : ℚ) (k : ℕ),
        (∀ p ∈ milestoneList wMs, u2 p = true) →
        stepTracker g wMs u2 b = some (u3, r, k) → r = b ∧ ∀ q, u3 q = u2 q)) :=
  ⟨rfl, claim_C4_monotone_idempotent wMs wU0 wRun wOuts rfl⟩

/-- Claim C5: every successful `reset` leaves an achievement map in which every
flag reads false, regardless of the map's state before the call, and the same
call recomputes the grid and the four cached milestone positions via the
layout generator (the clearing is sequenced before `_gen_grid` runs, and
`_gen_grid` never touches the achievement map). -/
theorem claim_C5_reset_clears (st : EnvState) (W H d : ℕ) (yk rk : Pos)
    (st2 : EnvState) (h : resetEnv st W H d yk rk = some st2) :
    (∀ p, st2.unlocked p = false) ∧
    st2.yellow_key_pos = yk ∧
    st2.red_key_pos = rk ∧
    st2.first_yellow_door_pos = (splitIdx W, d) ∧
    st2.first_red_door_pos = (splitIdx W + 2, d) ∧
    st2.grid = genGridF W H d yk rk := by
  unfold resetEnv genGridChecked at h
  by_cases hW : W % 2 = 0
  · simp only [hW, if_true] at h
    obtain rfl := (Option.some.injEq _ _).mp h |>.symm
    exact ⟨fun p => rfl, rfl, rfl, rfl, rfl, rfl⟩
  · simp [hW] at h

theorem claim_C5_reset_clears_witness :
    resetEnv wStPre 8 8 1 (1, 1) (1, 2) = some wStPost ∧
    ((∀ p, wStPost.unlocked p = false) ∧
      wStPost.yellow_key_pos = (1, 1) ∧
      wStPost.red_key_pos = (1, 2) ∧
      wStPost.first_yellow_door_pos = (splitIdx 8, 1) ∧
      wStPost.first_red_door_pos = (splitIdx 8 + 2, 1) ∧
      wStPost.grid = genGridF 8 8 1 (1, 1) (1, 2)) :=
  ⟨rfl, claim_C5_reset_clears wStPre 8 8 1 (1, 1) (1, 2) wStPost rfl⟩

/-- Claim C8: `_gen_grid` fails exactly on odd widths — the assertion
`assert width % 2 == 0` raises before any door or key has been placed (at the
assertion point the grid holds only border walls and the goal), and for every
even width the assertion passes. -/
theorem claim_C8_odd_width_assert (W H d : ℕ) (yk rk : Pos) :
    (genGridChecked W H d yk rk = none ↔ W % 2 ≠ 0) ∧
    (∀ q : Pos,
      (∀ c, gridBeforeAssert W H q ≠ some (.key c)) ∧
      (∀ c o l, gridBeforeAssert W H q ≠ some (.door c o l))) := by
  constructor
  · unfold genGridChecked
    by_cases hW : W % 2 = 0 <;> simp [hW]
  · intro q
    unfold gridBeforeAssert putObj wallRect emptyGrid
    constructor
    · intro c
      split_ifs <;> simp
    · intro c o l
      split_ifs <;> simp

/-- When no milestone newly triggers, a successful tracker step changes neither
the achievement map nor the reward. -/
lemma stepTracker_noTrig (g : GridF) (ms : Milestones) (u : Pos → Bool) (b : ℚ)
    (u2 : Pos → Bool) (r : ℚ) (k : ℕ)
    (htrig : anyTrig g ms u = false)
    (h : stepTracker g ms u b = some (u2, r, k)) :
    r = b ∧ ∀ q, u2 q = u q := by
  have hsplit : trigKey g u ms.yellow_key_pos = false ∧
      trigDoor g u ms.first_yellow_door_pos = false ∧
      trigKey g u ms.red_key_pos = false ∧
      trigDoor g u ms.first_red_door_pos = false := by
    unfold anyTrig at htrig
    rcases Bool.or_eq_false_iff.mp htrig with ⟨h3, h4⟩
    rcases Bool.or_eq_false_iff.mp h3 with ⟨h5, h6⟩
    rcases Bool.or_eq_false_iff.mp h5 with ⟨h7, h8⟩
    exact ⟨h7, h8, h6, h4⟩
  obtain ⟨t1, t2, t3, t4⟩ := hsplit
  obtain ⟨stC, stD, hC, hD, hout⟩ := stepTracker_decomp g ms u b _ h
  set stA := keyCheck g ⟨u, b⟩ ms.yellow_key_pos with hAdef
  set stB := keyCheck g stA ms.red_key_pos with hBdef
  have hAu : ∀ q, stA.unlocked q = u q := by
    intro q
    rw [hAdef, keyCheck_unlocked]
    simp [t1]
  have hAr : stA.reward = b := by
    rw [hAdef, keyCheck_reward]
    simp [t1]
  have htA : trigKey g stA.unlocked ms.red_key_pos = trigKey g u ms.red_key_pos := by
    unfold trigKey; rw [hAu]
  have hBu : ∀ q, stB.unlocked q = u q := by
    intro q
    rw [hBdef, keyCheck_unlocked, htA, hAu]
    simp [t3]
  have hBr : stB.reward = b := by
    rw [hBdef, keyCheck_reward, htA, hAr]
    simp [t3]
  have htB : trigDoor g stB.unlocked ms.first_yellow_door_pos =
      trigDoor g u ms.first_yellow_door_pos := by
    unfold trigDoor; rw [hBu]
  have hCu : ∀ q, stC.unlocked q = u q := by
    intro q
    rw [doorCheck_unlocked g stB stC _ hC, htB, hBu]
    simp [t2]
  have hCr : stC.reward = b := by
    rw [doorCheck_reward g stB stC _ hC, htB, hBr]
    simp [t2]
  have htC : trigDoor g stC.unlocked ms.first_red_door_pos =
      trigDoor g u ms.first_red_door_pos := by
    unfold trigDoor; rw [hCu]
  have hDu : ∀ q, stD.unlocked q = u q := by
    intro q
    rw [doorCheck_unlocked g stC stD _ hD, htC, hCu]
    simp [t4]
  have hDr : stD.reward = b := by
    rw [doorCheck_reward g stC stD _ hD, htC, hCr]
    simp [t4]
  constructor
  · have hr : r = stD.reward := congrArg (fun x => x.2.1) hout
    rw [hr, hDr]
  · intro q
    have hu : u2 = stD.unlocked := congrArg Prod.fst hout
    rw [hu, hDu]

/-- Claim C9: the observation, terminated flag and truncated flag returned by
`step` are always exactly those produced by the framework's step, and on any
step in which no milestone newly triggers the reward passes through unchanged
as well — the milestone tracker only ever rewrites the reward, never the
termination signals. -/
theorem claim_C9_passthrough {Ob : Type} (st : EnvState) (obs : Ob) (b : ℚ)
    (term trunc : Bool) (st2 : EnvState) (obs2 : Ob) (r2 : ℚ) (t2 tr2 : Bool) (k : ℕ)
    (h : stepEnv st obs b term trunc = some (st2, obs2, r2, t2, tr2, k)) :
    obs2 = obs ∧ t2 = term ∧ tr2 = trunc ∧
      (anyTrig st.grid st.milestones st.unlocked = false → r2 = b) := by
  unfold stepEnv at h
  rcases hst : stepTracker st.grid st.milestones st.unlocked b with _ | out
  · rw [hst] at h; simp at h
  obtain ⟨u2, r, k2⟩ := out
  rw [hst] at h
  simp only [Option.some.injEq, Prod.mk.injEq] at h
  obtain ⟨-, hobs, hr, ht, htr, -⟩ := h
  refine ⟨hobs.symm, ht.symm, htr.symm, ?_⟩
  intro htrig
  obtain ⟨hrb, -⟩ :=
    stepTracker_noTrig st.grid st.milestones st.unlocked b u2 r k2 htrig hst
  rw [← hr, hrb]

lemma splitIdx_lt (W : ℕ) (hW2 : W % 2 = 0) (hW8 : 8 ≤ W) :
    splitIdx W + 3 < W - 2 := by
  unfold splitIdx
  omega

/-- The pre-key grid as one flat conditional (pure unfolding of the builder
pipeline). -/
lemma gridWithDoors_eval (W H d : ℕ) (q : Pos) :
    gridWithDoors W H d q =
      if q = (splitIdx W + 3, d) then some (.door .yellow false true)
      else if q = (splitIdx W + 2, d) then some (.door .red false true)
      else if q = (splitIdx W + 1, d) then some (.door .yellow false true)
      else if q = (splitIdx W, d) then some (.door .yellow false true)
      else if q.1 = splitIdx W + 3 ∧ q.2 < H then some .wall
      else if q.1 = splitIdx W + 2 ∧ q.2 < H then some .wall
      else if q.1 = splitIdx W + 1 ∧ q.2 < H then some .wall
      else if q.1 = splitIdx W ∧ q.2 < H then some .wall
      else if q = (W - 2, H - 2) then some .goal
      else if ((q.1 = 0 ∨ q.1 = W - 1) ∧ q.2 < H) ∨ ((q.2 = 0 ∨ q.2 = H - 1) ∧ q.1 < W)
        then some .wall
      else none := rfl

set_option maxHeartbeats 1000000 in
/-- No cell of the pre-key grid holds a key. -/
lemma gridWithDoors_no_key (W H d : ℕ) (q : Pos) (c : WColor) :
    gridWithDoors W H d q ≠ some (.key c) := by
  rw [gridWithDoors_eval]
  split_ifs <;> simp

set_option maxHeartbeats 1000000 in
/-- In the pre-key grid the goal sits exactly at `(W-2, H-2)`. -/
lemma gridWithDoors_goal_iff (W H d : ℕ) (hW2 : W % 2 = 0) (hW8 : 8 ≤ W) (q : Pos) :
    gridWithDoors W H d q = some .goal ↔ q = (W - 2, H - 2) := by
  constructor
  · intro hq
    rw [gridWithDoors_eval] at hq
    split_ifs at hq <;> simp_all
  · rintro rfl
    have hs := splitIdx_lt W hW2 hW8
    have e1 : ¬(W - 2 = splitIdx W) := by omega
    have e2 : ¬(W - 2 = splitIdx W + 1) := by omega
    have e3 : ¬(W - 2 = splitIdx W + 2) := by omega
    have e4 : ¬(W - 2 = splitIdx W + 3) := by omega
    rw [gridWithDoors_eval]
    simp [Prod.mk.injEq, e1, e2, e3, e4]

set_option maxHeartbeats 1000000 in
/-- The pre-key grid holds a door exactly at the four gap cells of row `d`. -/
lemma gridWithDoors_door_iff (W H d : ℕ) (q : Pos) :
    (∃ c o l, gridWithDoors W H d q = some (.door c o l)) ↔
      (q.2 = d ∧ (q.1 = splitIdx W ∨ q.1 = splitIdx W + 1 ∨ q.1 = splitIdx W + 2 ∨
        q.1 = splitIdx W + 3)) := by
  obtain ⟨x, y⟩ := q
  constructor
  · rintro ⟨c, o, l, hq⟩
    rw [gridWithDoors_eval] at hq
    split_ifs at hq <;> simp_all [Prod.mk.injEq]
  · rintro ⟨rfl, hx⟩
    have n1 : splitIdx W ≠ splitIdx W + 1 := by omega
    have n2 : splitIdx W ≠ splitIdx W + 2 := by omega
    have n3 : splitIdx W ≠ splitIdx W + 3 := by omega
    have n12 : splitIdx W + 1 ≠ splitIdx W + 2 := by omega
    have n13 : splitIdx W + 1 ≠ splitIdx W + 3 := by omega
    have n23 : splitIdx W + 2 ≠ splitIdx W + 3 := by omega
    rcases hx with hx | hx | hx | hx
    · subst hx
      refine ⟨.yellow, false, true, ?_⟩
      rw [gridWithDoors_eval]
      simp [Prod.mk.injEq, n1, n2, n3]
    · subst hx
      refine ⟨.yellow, false, true, ?_⟩
      rw [gridWithDoors_eval]
      simp [Prod.mk.injEq, n12, n13]
    · subst hx
      refine ⟨.red, false, true, ?_⟩
      rw [gridWithDoors_eval]
      simp [Prod.mk.injEq, n23]
    · subst hx
      refine ⟨.yellow, false, true, ?_⟩
      rw [gridWithDoors_eval]
      simp

set_option maxHeartbeats 1000000 in
/-- Contents of the four door cells of the pre-key grid, left to right. -/
lemma gridWithDoors_cells (W H d : ℕ) :
    gridWithDoors W H d (splitIdx W, d) = some (.door .yellow false true) ∧
    gridWithDoors W H d (splitIdx W + 1, d) = some (.door .yellow false true) ∧
    gridWithDoors W H d (splitIdx W + 2, d) = some (.door .red false true) ∧
    gridWithDoors W H d (splitIdx W + 3, d) = some (.door .yellow false true) := by
  have n1 : splitIdx W ≠ splitIdx W + 1 := by omega
  have n2 : splitIdx W ≠ splitIdx W + 2 := by omega
  have n3 : splitIdx W ≠ splitIdx W + 3 := by omega
  have n12 : splitIdx W + 1 ≠ splitIdx W + 2 := by omega
  have n13 : splitIdx W + 1 ≠ splitIdx W + 3 := by omega
  have n23 : splitIdx W + 2 ≠ splitIdx W + 3 := by omega
  refine ⟨?_, ?_, ?_, ?_⟩ <;> rw [gridWithDoors_eval]
  · simp [Prod.mk.injEq, n1, n2, n3]
  · simp [Prod.mk.injEq, n12, n13]
  · simp [Prod.mk.injEq, n23]
  · simp

/-- The final grid relative to the pre-key grid (pure unfolding). -/
lemma genGridF_eval (W H d : ℕ) (yk rk q : Pos) :
    genGridF W H d yk rk q =
      if q = rk then some (.key .red)
      else if q = yk then some (.key .yellow)
      else gridWithDoors W H d q := rfl

set_option maxHeartbeats 1000000 in
/-- Claim C6: for every even width `W ≥ 8` and supported height `H`,
`_gen_grid` places exactly one goal (at `(W-2, H-2)`), exactly two keys (one
yellow, one red, both in the left region `x < splitIdx`), and exactly four
locked doors in row `doorIdx` whose colours left to right at columns
`splitIdx, splitIdx+1, splitIdx+2, splitIdx+3` are yellow, yellow, red,
yellow, with `splitIdx = 2 + (W-8)/2` (so 2, 4, 6 at widths 8, 12, 16); the
cached milestone door positions are `(splitIdx, doorIdx)` and
`(splitIdx+2, doorIdx)`. -/
theorem claim_C6_layout (W H d : ℕ) (yk rk : Pos)
    (hW2 : W % 2 = 0) (hW8 : 8 ≤ W) (hH : 4 ≤ H) (hd1 : 1 ≤ d) (hd2 : d ≤ H - 3)
    (hykx : yk.1 < splitIdx W) (hyky : yk.2 < H)
    (hrkx : rk.1 < splitIdx W) (hrky : rk.2 < H)
    (hykfree : gridWithDoors W H d yk = none)
    (hrkfree : putObj (gridWithDoors W H d) yk (.key .yellow) rk = none) :
    (∀ q : Pos, genGridF W H d yk rk q = some .goal ↔ q = (W - 2, H - 2)) ∧
    (∀ q : Pos, (∃ c, genGridF W H d yk rk q = some (.key c)) ↔ (q = yk ∨ q = rk)) ∧
    genGridF W H d yk rk yk = some (.key .yellow) ∧
    genGridF W H d yk rk rk = some (.key .red) ∧
    yk.1 < splitIdx W ∧ rk.1 < splitIdx W ∧
    (∀ q : Pos, (∃ c o l, genGridF W H d yk rk q = some (.door c o l)) ↔
      (q.2 = d ∧ (q.1 = splitIdx W ∨ q.1 = splitIdx W + 1 ∨ q.1 = splitIdx W + 2 ∨
        q.1 = splitIdx W + 3))) ∧
    genGridF W H d yk rk (splitIdx W, d) = some (.door .yellow false true) ∧
    genGridF W H d yk rk (splitIdx W + 1, d) = some (.door .yellow false true) ∧
    genGridF W H d yk rk (splitIdx W + 2, d) = some (.door .red false true) ∧
    genGridF W H d yk rk (splitIdx W + 3, d) = some (.door .yellow false true) ∧
    splitIdx W = 2 + (W - 8) / 2 ∧ splitIdx 8 = 2 ∧ splitIdx 12 = 4 ∧ splitIdx 16 = 6 ∧
    genGridChecked W H d yk rk =
      some (genGridF W H d yk rk, ⟨yk, (splitIdx W, d), rk, (splitIdx W + 2, d)⟩) := by
  have hcells := gridWithDoors_cells W H d
  -- the red key's cell was free after the yellow key was placed
  have hne : rk ≠ yk ∧ gridWithDoors W H d rk = none := by
    by_cases hq : rk = yk
    · exfalso
      have heq : putObj (gridWithDoors W H d) yk (.key .yellow) rk =
          some (.key .yellow) := by
        simp [putObj, hq]
      rw [heq] at hrkfree
      cases hrkfree
    · refine ⟨hq, ?_⟩
      have h2 := hrkfree
      unfold putObj at h2
      simpa [hq] using h2
  obtain ⟨hrkyk, hgrk⟩ := hne
  have hGoalCell : gridWithDoors W H d (W - 2, H - 2) = some .goal :=
    (gridWithDoors_goal_iff W H d hW2 hW8 _).mpr rfl
  have hykGoal : yk ≠ (W - 2, H - 2) := by
    intro hc; rw [hc, hGoalCell] at hykfree; cases hykfree
  have hrkGoal : rk ≠ (W - 2, H - 2) := by
    intro hc; rw [hc, hGoalCell] at hgrk; cases hgrk
  have hyk0 : yk ≠ (splitIdx W, d) := by
    intro hc; rw [hc, hcells.1] at hykfree; cases hykfree
  have hyk1 : yk ≠ (splitIdx W + 1, d) := by
    intro hc; rw [hc, hcells.2.1] at hykfree; cases hykfree
  have hyk2 : yk ≠ (splitIdx W + 2, d) := by
    intro hc; rw [hc, hcells.2.2.1] at hykfree; cases hykfree
  have hyk3 : yk ≠ (splitIdx W + 3, d) := by
    intro hc; rw [hc, hcells.2.2.2] at hykfree; cases hykfree
  have hrk0 : rk ≠ (splitIdx W, d) := by
    intro hc; rw [hc, hcells.1] at hgrk; cases hgrk
  have hrk1 : rk ≠ (splitIdx W + 1, d) := by
    intro hc; rw [hc, hcells.2.1] at hgrk; cases hgrk
  have hrk2 : rk ≠ (splitIdx W + 2, d) := by
    intro hc; rw [hc, hcells.2.2.1] at hgrk; cases hgrk
  have hrk3 : rk ≠ (splitIdx W + 3, d) := by
    intro hc; rw [hc, hcells.2.2.2] at hgrk; cases hgrk
  refine ⟨?_, ?_, ?_, ?_, hykx, hrkx, ?_, ?_, ?_, ?_, ?_, rfl, rfl, rfl, rfl, ?_⟩
  · -- exactly one goal
    intro q
    rw [genGridF_eval]
    by_cases h1 : q = rk
    · subst h1
      simp [hrkGoal]
    · by_cases h2 : q = yk
      · subst h2
        simp [h1, hykGoal]
      · simp only [if_neg h1, if_neg h2]
        exact gridWithDoors_goal_iff W H d hW2 hW8 q
  · -- exactly the two key cells hold keys
    intro q
    by_cases h1 : q = rk
    · subst h1
      rw [genGridF_eval]
      simp
    · by_cases h2 : q = yk
      · subst h2
        rw [genGridF_eval]
        simp [h1]
      · rw [genGridF_eval]
        simp only [if_neg h1, if_neg h2]
        constructor
        · rintro ⟨c, hc⟩
          exact absurd hc (gridWithDoors_no_key W H d q c)
        · rintro (rfl | rfl)
          · exact absurd rfl h2
          · exact absurd rfl h1
  · -- yellow key content
    rw [genGridF_eval, if_neg (Ne.symm hrkyk)]
    simp
  · -- red key content
    rw [genGridF_eval]
    simp
  · -- doors exactly at the four gap cells
    intro q
    by_cases h1 : q = rk
    · subst h1
      constructor
      · rintro ⟨c, o, l, hc⟩
        rw [genGridF_eval, if_pos rfl] at hc
        cases hc
      · intro hr
        obtain ⟨c, o, l, hc⟩ := (gridWithDoors_door_iff W H d q).mpr hr
        rw [hgrk] at hc
        cases hc
    · by_cases h2 : q = yk
      · subst h2
        constructor
        · rintro ⟨c, o, l, hc⟩
          rw [genGridF_eval, if_neg h1, if_pos rfl] at hc
          cases hc
        · intro hr
          obtain ⟨c, o, l, hc⟩ := (gridWithDoors_door_iff W H d q).mpr hr
          rw [hykfree] at hc
          cases hc
      · rw [genGridF_eval]  -- here the rewrite happens inside the existential
        simp only [if_neg h1, if_neg h2]
        exact gridWithDoors_door_iff W H d q
  · rw [genGridF_eval, if_neg (Ne.symm hrk0), if_neg (Ne.symm hyk0)]
    exact hcells.1
  · rw [genGridF_eval, if_neg (Ne.symm hrk1), if_neg (Ne.symm hyk1)]
    exact hcells.2.1
  · rw [genGridF_eval, if_neg (Ne.symm hrk2), if_neg (Ne.symm hyk2)]
    exact hcells.2.2.1
  · rw [genGridF_eval, if_neg (Ne.symm hrk3), if_neg (Ne.symm hyk3)]
    exact hcells.2.2.2
  · simp [genGridChecked, hW2]

theorem claim_C6_layout_witness :
    ((8 : ℕ) % 2 = 0 ∧ (8 : ℕ) ≤ 8 ∧ (4 : ℕ) ≤ 8 ∧ (1 : ℕ) ≤ 1 ∧ (1 : ℕ) ≤ 8 - 3 ∧
      ((1, 1) : Pos).1 < splitIdx 8 ∧ ((1, 1) : Pos).2 < 8 ∧
      ((1, 2) : Pos).1 < splitIdx 8 ∧ ((1, 2) : Pos).2 < 8 ∧
      gridWithDoors 8 8 1 (1, 1) = none ∧
      putObj (gridWithDoors 8 8 1) (1, 1) (.key .yellow) (1, 2) = none) ∧
    ((∀ q : Pos, genGridF 8 8 1 (1, 1) (1, 2) q = some .goal ↔ q = (8 - 2, 8 - 2)) ∧
      (∀ q : Pos, (∃ c, genGridF 8 8 1 (1, 1) (1, 2) q = some (.key c)) ↔
        (q = (1, 1) ∨ q = (1, 2))) ∧
      genGridF 8 8 1 (1, 1) (1, 2) (1, 1) = some (.key .yellow) ∧
      genGridF 8 8 1 (1, 1) (1, 2) (1, 2) = some (.key .red) ∧
      ((1, 1) : Pos).1 < splitIdx 8 ∧ ((1, 2) : Pos).1 < splitIdx 8 ∧
      (∀ q : Pos, (∃ c o l, genGridF 8 8 1 (1, 1) (1, 2) q = some (.door c o l)) ↔
        (q.2 = 1 ∧ (q.1 = splitIdx 8 ∨ q.1 = splitIdx 8 + 1 ∨ q.1 = splitIdx 8 + 2 ∨
          q.1 = splitIdx 8 + 3))) ∧
      genGridF 8 8 1 (1, 1) (1, 2) (splitIdx 8, 1) = some (.door .yellow false true) ∧
      genGridF 8 8 1 (1, 1) (1, 2) (splitIdx 8 + 1, 1) = some (.door .yellow false true) ∧
      genGridF 8 8 1 (1, 1) (1, 2) (splitIdx 8 + 2, 1) = some (.door .red false true) ∧
      genGridF 8 8 1 (1, 1) (1, 2) (splitIdx 8 + 3, 1) = some (.door .yellow false true) ∧
      splitIdx 8 = 2 + (8 - 8) / 2 ∧ splitIdx 8 = 2 ∧ splitIdx 12 = 4 ∧ splitIdx 16 = 6 ∧
      genGridChecked 8 8 1 (1, 1) (1, 2) =
        some (genGridF 8 8 1 (1, 1) (1, 2),
          ⟨(1, 1), (splitIdx 8, 1), (1, 2), (splitIdx 8 + 2, 1)⟩)) :=
  ⟨⟨by decide, by decide, by decide, by decide, by decide, by decide, by decide,
      by decide, by decide, by decide, by decide⟩,
    claim_C6_layout 8 8 1 (1, 1) (1, 2) (by decide) (by decide) (by decide) (by decide)
      (by decide) (by decide) (by decide) (by decide) (by decide) (by decide) (by decide)⟩

theorem claim_C9_passthrough_witness :
    stepEnv wStepSt (0 : ℕ) 5 false true =
      some ({ wStepSt with unlocked := wU0 }, 0, 5, false, true, 0) ∧
    anyTrig wStepSt.grid wStepSt.milestones wStepSt.unlocked = false ∧
    ((0 : ℕ) = 0 ∧ false = false ∧ true = true ∧
      (anyTrig wStepSt.grid wStepSt.milestones wStepSt.unlocked = false → (5 : ℚ) = 5)) :=
  ⟨rfl, by decide,
    claim_C9_passthrough wStepSt (0 : ℕ) 5 false true
      { wStepSt with unlocked := wU0 } 0 5 false true 0 rfl⟩

/-- Claim C7: for every supported height the door row produced by `_gen_grid`
satisfies `1 ≤ doorIdx ≤ H-3`, and the draw is uniform on that closed
interval: each row there has probability `1/(H-3)`, rows outside have
probability `0`, and the masses sum to one. -/
theorem claim_C7_door_row (H : ℕ) (hH : 4 ≤ H) :
    doorIdxSupport H = Finset.Icc 1 (H - 3) ∧
    (∀ n ∈ doorIdxSupport H, 1 ≤ n ∧ n ≤ H - 3) ∧
    (∀ n ∈ doorIdxSupport H, doorIdxProb H n = 1 / ((H - 3 : ℕ) : ℚ)) ∧
    (∀ n, n ∉ doorIdxSupport H → doorIdxProb H n = 0) ∧
    ∑ n ∈ doorIdxSupport H, doorIdxProb H n = 1 := by
  have hIco : Finset.Ico 1 (H - 2) = Finset.Icc 1 (H - 3) := by
    ext n
    simp only [Finset.mem_Ico, Finset.mem_Icc]
    omega
  have hsub : (H - 2) - 1 = H - 3 := by omega
  have hprob : ∀ n ∈ doorIdxSupport H, doorIdxProb H n = 1 / ((H - 3 : ℕ) : ℚ) := by
    intro n hn
    have hn2 : n ∈ Finset.Ico 1 (H - 2) := hn
    unfold doorIdxProb randIntProb
    rw [if_pos hn2, hsub]
  refine ⟨?_, ?_, hprob, ?_, ?_⟩
  · unfold doorIdxSupport randIntSupport
    exact hIco
  · intro n hn
    have hn2 : n ∈ Finset.Ico 1 (H - 2) := hn
    rw [Finset.mem_Ico] at hn2
    omega
  · intro n hn
    have hn2 : n ∉ Finset.Ico 1 (H - 2) := hn
    unfold doorIdxProb randIntProb
    rw [if_neg hn2]
  · have hcard : (doorIdxSupport H).card = H - 3 := by
      unfold doorIdxSupport randIntSupport
      rw [Nat.card_Ico]
      omega
    have hne : ((H - 3 : ℕ) : ℚ) ≠ 0 := by
      have h1 : 1 ≤ H - 3 := by omega
      exact Nat.cast_ne_zero.mpr (by omega)
    rw [Finset.sum_congr rfl hprob, Finset.sum_const, hcard, nsmul_eq_mul,
      mul_one_div, div_self hne]

theorem claim_C7_door_row_witness :
    (4 : ℕ) ≤ 8 ∧
    (doorIdxSupport 8 = Finset.Icc 1 (8 - 3) ∧
      (∀ n ∈ doorIdxSupport 8, 1 ≤ n ∧ n ≤ 8 - 3) ∧
      (∀ n ∈ doorIdxSupport 8, doorIdxProb 8 n = 1 / ((8 - 3 : ℕ) : ℚ)) ∧
      (∀ n, n ∉ doorIdxSupport 8 → doorIdxProb 8 n = 0) ∧
      ∑ n ∈ doorIdxSupport 8, doorIdxProb 8 n = 1) :=
  ⟨by decide, claim_C7_door_row 8 (by decide)⟩

lemma cellStep_door (a b : Option WorldObj) (c : WColor) (o l : Bool)
    (h : cellStep a b) (ha : a = some (.door c o l)) :
    ∃ o2 l2, b = some (.door c o2 l2) := by
  cases h with
  | same c2 => exact ⟨o, l, ha⟩
  | pickupKey c2 => simp at ha
  | toggleDoor c2 o0 l0 o2 l2 =>
    simp only [Option.some.injEq, WorldObj.door.injEq] at ha
    exact ⟨o2, l2, by rw [ha.1]⟩

lemma DoorAt_preserved (g g2 : GridF) (p : Pos) (h : gridStep g g2)
    (hd : DoorAt g p) : DoorAt g2 p := by
  obtain ⟨c, o, l, hc⟩ := hd
  obtain ⟨o2, l2, hb⟩ := cellStep_door (g p) (g2 p) c o l (h p) hc
  exact ⟨c, o2, l2, hb⟩

lemma DoorAt_reach (g0 g : GridF) (p : Pos)
    (h : Relation.ReflTransGen gridStep g0 g) (hd : DoorAt g0 p) : DoorAt g p := by
  induction h with
  | refl => exact hd
  | tail hab hbc ih => exact DoorAt_preserved _ _ p hbc ih

/-- With doors present at both cached door positions, the tracker cannot
crash: the `is_open` read always finds a door. -/
lemma stepTracker_isSome_of_doors (g : GridF) (ms : Milestones) (u : Pos → Bool)
    (b : ℚ) (h1 : DoorAt g ms.first_yellow_door_pos)
    (h2 : DoorAt g ms.first_red_door_pos) :
    (stepTracker g ms u b).isSome = true := by
  obtain ⟨c1, o1, l1, hc1⟩ := h1
  obtain ⟨c2, o2, l2, hc2⟩ := h2
  have hco1 : cellOpen (g ms.first_yellow_door_pos) = some o1 := by
    rw [hc1]; rfl
  have hco2 : cellOpen (g ms.first_red_door_pos) = some o2 := by
    rw [hc2]; rfl
  simp only [stepTracker, List.foldl, Option.some_bind]
  rcases hC : doorCheck g (keyCheck g (keyCheck g ⟨u, b⟩ ms.yellow_key_pos) ms.red_key_pos)
      ms.first_yellow_door_pos with _ | stC
  · rw [doorCheck_eq_none] at hC
    rw [hC.2] at hco1
    cases hco1
  · simp only [Option.some_bind]
    rcases hD : doorCheck g stC ms.first_red_door_pos with _ | stD
    · rw [doorCheck_eq_none] at hD
      rw [hD.2] at hco2
      cases hco2
    · rfl

/-- Claim C10: the door-milestone checks in `step` read the cells at the two
cached door positions and access `is_open` with no None guard; the access is
safe because in every grid reachable from the generated layout a door object
is present at both cached positions — the keys spawn strictly left of the
splitting wall, and no framework action ever removes a door — so the tracker
never dereferences an empty cell. -/
theorem claim_C10_door_access_safe (W H d : ℕ) (yk rk : Pos) (ms : Milestones)
    (u : Pos → Bool) (b : ℚ) (g : GridF)
    (hykx : yk.1 < splitIdx W) (hrkx : rk.1 < splitIdx W)
    (hfy : ms.first_yellow_door_pos = (splitIdx W, d))
    (hfr : ms.first_red_door_pos = (splitIdx W + 2, d))
    (hreach : Relation.ReflTransGen gridStep (genGridF W H d yk rk) g) :
    (stepTracker g ms u b).isSome = true := by
  have hyk0 : yk ≠ (splitIdx W, d) := by
    intro hc
    have h2 := congrArg Prod.fst hc
    simp at h2
    omega
  have hyk2 : yk ≠ (splitIdx W + 2, d) := by
    intro hc
    have h2 := congrArg Prod.fst hc
    simp at h2
    omega
  have hrk0 : rk ≠ (splitIdx W, d) := by
    intro hc
    have h2 := congrArg Prod.fst hc
    simp at h2
    omega
  have hrk2 : rk ≠ (splitIdx W + 2, d) := by
    intro hc
    have h2 := congrArg Prod.fst hc
    simp at h2
    omega
  have hcells := gridWithDoors_cells W H d
  have hd1 : DoorAt (genGridF W H d yk rk) (splitIdx W, d) := by
    rw [DoorAt, genGridF_eval, if_neg (Ne.symm hrk0), if_neg (Ne.symm hyk0)]
    exact ⟨.yellow, false, true, hcells.1⟩
  have hd2 : DoorAt (genGridF W H d yk rk) (splitIdx W + 2, d) := by
    rw [DoorAt, genGridF_eval, if_neg (Ne.symm hrk2), if_neg (Ne.symm hyk2)]
    exact ⟨.red, false, true, hcells.2.2.1⟩
  have hg1 := DoorAt_reach _ g _ hreach hd1
  have hg2 := DoorAt_reach _ g _ hreach hd2
  rw [← hfy] at hg1
  rw [← hfr] at hg2
  exact stepTracker_isSome_of_doors g ms u b hg1 hg2

theorem claim_C10_door_access_safe_witness :
    (((1, 1) : Pos).1 < splitIdx 8 ∧ ((1, 2) : Pos).1 < splitIdx 8 ∧
      wMs.first_yellow_door_pos = (splitIdx 8, 1) ∧
      wMs.first_red_door_pos = (splitIdx 8 + 2, 1) ∧
      Relation.ReflTransGen gridStep (genGridF 8 8 1 (1, 1) (1, 2))
        (genGridF 8 8 1 (1, 1) (1, 2))) ∧
    (stepTracker (genGridF 8 8 1 (1, 1) (1, 2)) wMs wU0 0).isSome = true :=
  ⟨⟨by decide, by decide, by decide, by decide, Relation.ReflTransGen.refl⟩,
    claim_C10_door_access_safe 8 8 1 (1, 1) (1, 2) wMs wU0 0
      (genGridF 8 8 1 (1, 1) (1, 2)) (by decide) (by decide) (by decide) (by decide)
      Relation.ReflTransGen.refl⟩
